import Mathlib

/-!
Shallow embedding of the Data-Quality-Auditor-Pro quality-assessment pipeline
(src/profiler.py, src/missing_analyzer.py, src/outlier_detector.py,
src/validator.py, src/cleaner.py), together with theorems settling the
specification claims about it.

Modelling conventions:
* pandas cell values are modelled by `Val`: a rational number, a text value, or
  the missing sentinel `na` (NaN/None).  Machine floats are modelled by `ℚ`.
* a `DataFrame` is a header (column names with dtype tags) plus a list of rows;
  each row is a list of cells positionally aligned with the header.
* pandas reductions (`mean`, `median`, `quantile`, `std`) skip missing values;
  the embedding applies them to the list of non-missing numeric cells.
* `Series.quantile` uses linear interpolation on the sorted values, which is
  what `quantileQ` implements (`List.insertionSort` models the ascending sort).
-/

namespace DQA

/-- Cell value of a tabular dataset: numeric, text, or the missing sentinel. -/
inductive Val where
  | num (q : ℚ)
  | str (s : String)
  | na
deriving DecidableEq, Repr

/-- Column dtype tags as pandas reports them (`int64`, `float64`, `object`, …). -/
inductive Dtype where
  | int64
  | float64
  | object
  | boolTag
  | datetime
  | category
deriving DecidableEq, Repr

/-- Numeric dtypes, i.e. what `select_dtypes(include=[np.number])` keeps. -/
def Dtype.isNumeric : Dtype → Bool
  | .int64 => true
  | .float64 => true
  | _ => false

/-- Column description: a name and its dtype tag. -/
structure ColumnDef where
  name : String
  dtype : Dtype
deriving DecidableEq, Repr

/-- A row is the list of cells, positionally aligned with the header. -/
abbrev Row := List Val

/-- A DataFrame: header plus rows.  All rows are expected to have the same
length as the header (pandas invariant). -/
structure DataFrame where
  header : List ColumnDef
  rows : List Row
deriving DecidableEq, Repr

/-- The empty DataFrame, used as a read default for the heap model. -/
def emptyDF : DataFrame := ⟨[], []⟩

def Val.isna : Val → Bool
  | .na => true
  | _ => false

def Val.toNum : Val → Option ℚ
  | .num q => some q
  | _ => none

/-- Column names of a DataFrame (`df.columns`). -/
def DataFrame.colNames (df : DataFrame) : List String :=
  df.header.map (·.name)

/-- Number of rows (`len(df)`). -/
def DataFrame.nrows (df : DataFrame) : Nat := df.rows.length

/-- Number of columns (`len(df.columns)`). -/
def DataFrame.ncols (df : DataFrame) : Nat := df.header.length

/-- Position of a name in a header (first match). -/
def findColIdx (c : String) : List ColumnDef → Option Nat
  | [] => none
  | cd :: rest => if cd.name = c then some 0 else (findColIdx c rest).map (· + 1)

/-- Position of a column name in the header (first match, as `df[col]`). -/
def DataFrame.colIdx (df : DataFrame) (c : String) : Option Nat :=
  findColIdx c df.header

/-- Cells of the column at header position `j`, top to bottom. -/
def DataFrame.colCellsAt (df : DataFrame) (j : Nat) : List Val :=
  df.rows.map (fun r => r.getD j Val.na)

/-- Cells of the named column (`df[col]`); `[]` if the column is absent. -/
def DataFrame.colCells (df : DataFrame) (c : String) : List Val :=
  match df.colIdx c with
  | some j => df.colCellsAt j
  | none => []

/-- Dtype of the named column; `object` default if absent (never relied on). -/
def DataFrame.colDtype (df : DataFrame) (c : String) : Dtype :=
  match df.colIdx c with
  | some j => (df.header.getD j ⟨"", .object⟩).dtype
  | none => .object

/-- Non-missing cells of a series (`Series.dropna()`). -/
def dropNa (cells : List Val) : List Val :=
  cells.filter (fun v => !v.isna)

/-- Numeric values among the cells; for a numeric-dtype column this is exactly
`Series.dropna()`, since such a column holds only numbers and NaN. -/
def numsOf (cells : List Val) : List ℚ :=
  cells.filterMap Val.toNum

/-- Count of missing cells (`Series.isna().sum()`). -/
def naCount (cells : List Val) : Nat :=
  (cells.filter (fun v => v.isna)).length

/-- Distinct non-missing value count (`Series.nunique()`, which skips NaN). -/
def nuniqueCells (cells : List Val) : Nat :=
  (dropNa cells).dedup.length

/-- Total missing-cell count of the whole frame (`df.isna().sum().sum()`). -/
def DataFrame.totalNaCount (df : DataFrame) : Nat :=
  (df.rows.map (fun r => naCount r)).sum

/-- Ascending sort of numeric values, as pandas sorts before quantiles. -/
def sortQ (xs : List ℚ) : List ℚ :=
  List.insertionSort (· ≤ ·) xs

/-- Sum of a list of rationals. -/
def sumQ (xs : List ℚ) : ℚ := xs.sum

/-- Arithmetic mean (`Series.mean()` over the non-missing values). -/
def meanQ (xs : List ℚ) : ℚ := sumQ xs / xs.length

/-- Linear interpolation into a sorted list at fractional position `h`
(position `i` holds the `i`-th smallest value): the pandas
`interpolation='linear'` rule `s[lo] + (h - lo) * (s[lo+1] - s[lo])` with
`lo = floor h`.  Out-of-range reads default so that `h = n-1` yields the last
element. -/
def interpAt (s : List ℚ) (h : ℚ) : ℚ :=
  let lo : Nat := ⌊h⌋.toNat
  let a := s.getD lo 0
  let b := s.getD (lo + 1) a
  a + (h - (lo : ℚ)) * (b - a)

/-- Pandas `Series.quantile(p)` (linear interpolation) over the given values.
Pandas returns NaN on an empty series; the call sites in this codebase either
guard against that or the claims do not reach it, and the empty case is
modelled as `0`. -/
def quantileQ (xs : List ℚ) (p : ℚ) : ℚ :=
  let s := sortQ xs
  if s.length = 0 then 0
  else interpAt s (p * ((s.length : ℚ) - 1))

/-- Pandas `Series.median()`: the 0.5 quantile of the non-missing values, or
NaN (`none`) when there are none. -/
def medianOpt (xs : List ℚ) : Option ℚ :=
  if xs.isEmpty then none else some (quantileQ xs (1/2))

/-- Minimum of a list of rationals (call sites guarantee nonemptiness). -/
def minQ : List ℚ → ℚ
  | [] => 0
  | x :: xs => xs.foldl min x

/-- Maximum of a list of rationals (call sites guarantee nonemptiness). -/
def maxQ : List ℚ → ℚ
  | [] => 0
  | x :: xs => xs.foldl max x

/-- Population variance (ddof = 0), the square of the `scipy.stats.zscore`
scale. -/
def popVar (xs : List ℚ) : ℚ :=
  sumQ (xs.map (fun x => (x - meanQ xs) ^ 2)) / xs.length

/-- Sample variance (ddof = 1), the square of `Series.std()`. -/
def sampleVar (xs : List ℚ) : ℚ :=
  sumQ (xs.map (fun x => (x - meanQ xs) ^ 2)) / ((xs.length : ℚ) - 1)

/-- Rows that duplicate an earlier row are removed; first occurrences are kept
(`DataFrame.drop_duplicates`).  `seen` accumulates rows already emitted. -/
def dedupRows (seen : List Row) : List Row → List Row
  | [] => []
  | r :: rs => if r ∈ seen then dedupRows seen rs else r :: dedupRows (r :: seen) rs

/-- Count of rows that exactly duplicate an earlier row
(`df.duplicated().sum()`). -/
def DataFrame.duplicateRowCount (df : DataFrame) : Nat :=
  df.rows.length - (dedupRows [] df.rows).length

/-!  ## Profiler (src/profiler.py, `DatasetProfiler.generate_profile`)  -/

/-- Status of one numeric statistic as the profiler reports it: the Python
`None` marker, the float NaN, or an actual number.  The source computes
`float(col_data.mean()) if not col_data.empty else None`; `col_data` is the
whole column (missing cells included), so `None` appears only for a zero-row
frame, while a non-empty all-missing column yields float NaN. -/
inductive NumStat where
  | absent
  | nanStat
  | val (q : ℚ)
deriving DecidableEq, Repr

/-- Builds one numeric statistic the way `generate_profile` does: `None` when
the column (missing cells included) has no entries, NaN when the pandas
reduction sees no non-missing value, otherwise the reduction's value. -/
def DatasetProfiler.numStatOf (colLen : Nat) (nums : List ℚ) (f : List ℚ → ℚ) : NumStat :=
  if colLen = 0 then .absent
  else if nums.isEmpty then .nanStat
  else .val (f nums)

/-- Sample standard deviation status (`Series.std()`, ddof = 1): NaN with
fewer than two non-missing values.  The defined value is carried as the
variance `sampleVar`, of which pandas reports the (generally irrational)
square root; every claim concerns only the `absent`/`nanStat` classification,
never the magnitude. -/
def DatasetProfiler.stdStatOf (colLen : Nat) (nums : List ℚ) : NumStat :=
  if colLen = 0 then .absent
  else if nums.length ≤ 1 then .nanStat
  else .val (sampleVar nums)

/-- Numeric statistics block added for columns in `numeric_cols`. -/
structure NumericStats where
  mean : NumStat
  std : NumStat
  lo : NumStat
  hi : NumStat
  median : NumStat
deriving DecidableEq, Repr

/-- Per-column statistics record of the profile.  `numericStats` is `some` iff
the `mean`/`std`/`min`/`max`/`median` keys are present, i.e. iff the column is
numeric.  (`lo`/`hi` model the source's `min`/`max` keys.)  For a zero-row
frame the source's `missing_percentage` division is NaN; it is modelled as the
`ℚ` convention `0/0 = 0`, and no claim depends on it. -/
structure ColStats where
  dtype : Dtype
  missing_count : Nat
  missing_percentage : ℚ
  unique_count : Nat
  is_constant : Bool
  numericStats : Option NumericStats
deriving DecidableEq, Repr

/-- Dataset-level metadata of the profile.  The source also reports
`memory_usage` (platform-dependent byte accounting); it is glue with no claim
about it and is not modelled. -/
structure ProfileMetadata where
  total_rows : Nat
  total_columns : Nat
  duplicate_rows : Nat
  constant_columns : List String
deriving DecidableEq, Repr

/-- Column-type partition of the profile (`data_types`). -/
structure DataTypesBlock where
  numeric : List String
  categorical : List String
  datetime : List String
  boolean : List String
deriving DecidableEq, Repr

/-- The full profile (`DatasetProfiler.generate_profile` return value). -/
structure Profile where
  metadata : ProfileMetadata
  data_types : DataTypesBlock
  columns : List (String × ColStats)
deriving DecidableEq, Repr

/-- Statistics record for the column at header position `j`. -/
def DatasetProfiler.colStatsAt (df : DataFrame) (j : Nat) : ColStats :=
  let cd := df.header.getD j ⟨"", .object⟩
  let cells := df.colCellsAt j
  let nums := numsOf cells
  { dtype := cd.dtype
    missing_count := naCount cells
    missing_percentage := ((naCount cells : ℚ) / df.nrows) * 100
    unique_count := nuniqueCells cells
    is_constant := nuniqueCells cells ≤ 1
    numericStats :=
      if cd.dtype.isNumeric then
        some { mean := numStatOf cells.length nums meanQ
               std := stdStatOf cells.length nums
               lo := numStatOf cells.length nums minQ
               hi := numStatOf cells.length nums maxQ
               median := numStatOf cells.length nums (fun xs => quantileQ xs (1/2)) }
      else none }

/-- Shallow embedding of `DatasetProfiler.generate_profile`. -/
def DatasetProfiler.generate_profile (df : DataFrame) : Profile :=
  { metadata :=
      { total_rows := df.nrows
        total_columns := df.ncols
        duplicate_rows := df.duplicateRowCount
        constant_columns :=
          (df.header.filter
            (fun cd => nuniqueCells (df.colCells cd.name) ≤ 1)).map (·.name) }
    data_types :=
      { numeric := (df.header.filter (fun cd => cd.dtype.isNumeric)).map (·.name)
        categorical :=
          (df.header.filter
            (fun cd => cd.dtype = .object ∨ cd.dtype = .category)).map (·.name)
        datetime := (df.header.filter (fun cd => cd.dtype = .datetime)).map (·.name)
        boolean := (df.header.filter (fun cd => cd.dtype = .boolTag)).map (·.name) }
    columns :=
      (List.range df.ncols).map
        (fun j => ((df.header.getD j ⟨"", .object⟩).name, DatasetProfiler.colStatsAt df j)) }

/-!  ## MissingValueAnalyzer (src/missing_analyzer.py)  -/

/-- Per-column record of `MissingValueAnalyzer.analyze` (`col_analysis`). -/
structure MissingFinding where
  column : String
  missing_count : Nat
  missing_percentage : ℚ
  severity : String
  dtype : Dtype
  strategies : List String
deriving Repr

/-- Missing fraction of the column at position `j` (`missing_count /
total_rows`, and `0` for an empty frame, as the source's guard). -/
def MissingValueAnalyzer.missingPctAt (df : DataFrame) (j : Nat) : ℚ :=
  if 0 < df.nrows then (naCount (df.colCellsAt j) : ℚ) / df.nrows else 0

/-- Severity tier of a missing fraction, given the two thresholds. -/
def MissingValueAnalyzer.severityOf (warnThr critThr pct : ℚ) : String :=
  if pct > critThr then "error"
  else if pct > warnThr then "warning"
  else if pct > 0 then "info"
  else "none"

/-- Finding for the column at header position `j`. -/
def MissingValueAnalyzer.findingAt (df : DataFrame) (warnThr critThr : ℚ) (j : Nat) :
    MissingFinding :=
  let cd := df.header.getD j ⟨"", .object⟩
  let cells := df.colCellsAt j
  let pct := missingPctAt df j
  let sev := severityOf warnThr critThr pct
  { column := cd.name
    missing_count := naCount cells
    missing_percentage := pct * 100
    severity := sev
    dtype := cd.dtype
    strategies :=
      if sev ≠ "none" then
        (if cd.dtype.isNumeric then
          ["Impute with mean/median", "Fill with constant (0)"]
        else
          ["Impute with mode", "Fill with 'Unknown'"]) ++
        ["Drop rows if target variable"]
      else [] }

/-- Dataset-level block of `analyze` (`overall_stats`). -/
structure OverallMissingStats where
  missing_percentage : ℚ
  complete_rows_percentage : ℚ
deriving DecidableEq, Repr

/-- Return value of `MissingValueAnalyzer.analyze`. -/
structure MissingAnalysisResult where
  overall_stats : OverallMissingStats
  column_analysis : List MissingFinding
  recommendations : List MissingFinding
deriving Repr

/-- Shallow embedding of `MissingValueAnalyzer.analyze`. -/
def MissingValueAnalyzer.analyze (df : DataFrame) (warnThr critThr : ℚ) :
    MissingAnalysisResult :=
  let colAnalysis := (List.range df.ncols).map (findingAt df warnThr critThr)
  let completeRows := (df.rows.filter (fun r => naCount r = 0)).length
  { overall_stats :=
      { missing_percentage :=
          if 0 < df.nrows * df.ncols then
            ((df.totalNaCount : ℚ) / (df.nrows * df.ncols)) * 100
          else 0
        complete_rows_percentage :=
          if 0 < df.nrows then ((completeRows : ℚ) / df.nrows) * 100 else 0 }
    column_analysis := colAnalysis
    recommendations := colAnalysis.filter (fun c => c.missing_percentage > 0) }

/-!  ## OutlierDetector (src/outlier_detector.py)  -/

/-- Per-column record of `OutlierDetector.detect_all`
(`per_column_summary[col]`). -/
structure OutlierColInfo where
  iqr_outliers : Nat
  zscore_outliers : Nat
  isolation_outliers : Nat
  severity : String
deriving DecidableEq, Repr

/-- Decides `|x - mean| / std > t` for the z-score method without leaving `ℚ`:
`std = sqrt varPop` with `varPop > 0` at every call site (the column has more
than one distinct value), so for `t ≥ 0` the comparison squares to
`(x - mean)² > t² · varPop`, and for `t < 0` it always holds. -/
def zscoreExceeds (t varP d : ℚ) : Bool :=
  if t < 0 then true else decide (d ^ 2 > t ^ 2 * varP)

/-- IQR-fence outlier count of the non-missing values `nums` at multiplier
`k`: values outside `[Q1 - k·IQR, Q3 + k·IQR]` (source lines 36-39). -/
def OutlierDetector.iqrOutlierCount (nums : List ℚ) (k : ℚ) : Nat :=
  let q1 := quantileQ nums (1/4)
  let q3 := quantileQ nums (3/4)
  let iqr := q3 - q1
  (nums.filter (fun x => decide (x < q1 - k * iqr) || decide (x > q3 + k * iqr))).length

/-- Summary record for one analyzed column; `totalRows` is `len(self.df)`,
used by the severity rule. -/
def OutlierDetector.colSummary (nums : List ℚ) (k t : ℚ) (totalRows : Nat) :
    OutlierColInfo :=
  let iqrCount := iqrOutlierCount nums k
  let mu := meanQ nums
  let varP := popVar nums
  { iqr_outliers := iqrCount
    zscore_outliers := (nums.filter (fun x => zscoreExceeds t varP (x - mu))).length
    isolation_outliers := 0
    severity :=
      if (iqrCount : ℚ) > (5 / 100) * (totalRows : ℚ) then "high"
      else if iqrCount > 0 then "medium"
      else "low" }

/-- Numeric columns that survive `select_dtypes(include=[np.number]).dropna(
axis=1, how='all')`: numeric dtype with at least one non-missing cell.  Each
entry is the column name with its cells. -/
def OutlierDetector.keptNumericCols (df : DataFrame) : List (String × List Val) :=
  (List.range df.ncols).filterMap (fun j =>
    let cd := df.header.getD j ⟨"", .object⟩
    let cells := df.colCellsAt j
    if cd.dtype.isNumeric ∧ ¬(dropNa cells).isEmpty then some (cd.name, cells)
    else none)

/-- Return value of `OutlierDetector.detect_all`: the optional `'error'` key
plus the `'summary'` block. -/
structure OutlierResult where
  errorMsg : Option String
  per_column_summary : List (String × OutlierColInfo)
  total_ml_outliers : Nat
deriving Repr

/-- Shallow embedding of `OutlierDetector.detect_all`.  The sklearn
`IsolationForest` is an external collaborator: `iso` abstracts
`(fit_predict(m) == -1).sum()` on the median-imputed numeric matrix `m`
(column-major), and the source's `try/except` makes any failure behave as a
total function anyway. -/
def OutlierDetector.detect_all (df : DataFrame) (iqr_multiplier zscore_threshold : ℚ)
    (iso : List (List ℚ) → Nat) : OutlierResult :=
  let kept := keptNumericCols df
  if kept.isEmpty then
    { errorMsg := some "No numeric data available for outlier detection"
      per_column_summary := []
      total_ml_outliers := 0 }
  else
    let perColumn := kept.filterMap (fun nc =>
      if nuniqueCells nc.2 ≤ 1 then none
      else some (nc.1, colSummary (numsOf nc.2) iqr_multiplier zscore_threshold df.nrows))
    let validCols := kept.filterMap (fun nc =>
      if nuniqueCells nc.2 > 1 then
        some (nc.2.map (fun v => v.toNum.getD (quantileQ (numsOf nc.2) (1/2))))
      else none)
    { errorMsg := none
      per_column_summary := perColumn
      total_ml_outliers :=
        if validCols.isEmpty ∨ df.nrows = 0 then 0 else iso validCols }

/-!  ## Validator (src/validator.py)  -/

/-- Relationship rule: the raw expression text plus its pandas `df.query`
semantics.  `sem = none` models a malformed expression, where `query` raises
(and `validate_all` swallows the exception); `sem = some p` models a
well-formed expression, `p` deciding the predicate on one row given the
name-to-cell assignment. -/
structure RelSpec where
  expr : String
  sem : Option (List (String × Val) → Bool)

/-- Rule set for one column (`constraints[col]`), every key optional. -/
structure ColumnRules where
  minRule : Option ℚ := none
  maxRule : Option ℚ := none
  relationship : Option RelSpec := none

/-- Pandas semantics of `df[col] < bound` on one cell: NaN compares false.
A text cell against a number would raise in pandas; the pipeline only applies
range rules to numeric columns and the claims never reach that case, so it is
modelled as false. -/
def Val.ltQ (v : Val) (bound : ℚ) : Bool :=
  match v with
  | .num q => decide (q < bound)
  | _ => false

/-- Pandas semantics of `df[col] > bound` on one cell (see `Val.ltQ`). -/
def Val.gtQ (v : Val) (bound : ℚ) : Bool :=
  match v with
  | .num q => decide (q > bound)
  | _ => false

/-- One record of `constraint_violations`.  `expected` carries the source's
`'expected'` key (range rules), `ruleText` its `'rule'` key (business rules). -/
structure Violation where
  column : String
  constraintKind : String
  violations : Nat
  percentage : ℚ
  expected : Option String
  ruleText : Option String
  severity : String
deriving DecidableEq, Repr

/-- Name-to-cell assignment of one row, as `df.query` sees it. -/
def DataFrame.rowEnv (df : DataFrame) (r : Row) : List (String × Val) :=
  df.colNames.zip r

/-- Violations and violating-row count contributed by one `(col, rules)`
constraint entry, given the frame.  Mirrors one iteration of the source loop:
absent columns contribute nothing, and a malformed relationship is caught by
the bare `except` and contributes nothing. -/
def DataValidator.stepViolations (df : DataFrame) (c : String) (rules : ColumnRules) :
    List Violation × Nat :=
  if (df.colIdx c).isSome then
    let minPart : List Violation × Nat :=
      match rules.minRule with
      | some m =>
        let cnt := ((df.colCells c).filter (fun v => v.ltQ m)).length
        if cnt ≠ 0 then
          ([{ column := c, constraintKind := "min_value", violations := cnt
              percentage := ((cnt : ℚ) / df.nrows) * 100
              expected := some (">= " ++ toString m), ruleText := none
              severity := "error" }], cnt)
        else ([], 0)
      | none => ([], 0)
    let maxPart : List Violation × Nat :=
      match rules.maxRule with
      | some m =>
        let cnt := ((df.colCells c).filter (fun v => v.gtQ m)).length
        if cnt ≠ 0 then
          ([{ column := c, constraintKind := "max_value", violations := cnt
              percentage := ((cnt : ℚ) / df.nrows) * 100
              expected := some ("<= " ++ toString m), ruleText := none
              severity := "error" }], cnt)
        else ([], 0)
      | none => ([], 0)
    let relPart : List Violation × Nat :=
      match rules.relationship with
      | some rel =>
        match rel.sem with
        | some p =>
          let cnt := (df.rows.filter (fun r => !p (df.rowEnv r))).length
          if cnt ≠ 0 then
            ([{ column := c, constraintKind := "business_rule", violations := cnt
                percentage := ((cnt : ℚ) / df.nrows) * 100
                expected := none, ruleText := some rel.expr
                severity := "warning" }], cnt)
          else ([], 0)
        | none => ([], 0)
      | none => ([], 0)
    (minPart.1 ++ maxPart.1 ++ relPart.1, minPart.2 + maxPart.2 + relPart.2)
  else ([], 0)

/-- Summary block of the validation result. -/
structure ValidationSummary where
  data_quality_score : ℚ
  validation_passed : Bool
  total_issues : Nat
  error_issues : Nat
  warning_issues : Nat
deriving DecidableEq, Repr

/-- Return value of `DataValidator.validate_all`. -/
structure ValidationResult where
  summary : ValidationSummary
  constraint_violations : List Violation
  categorical_consistency : List String
deriving DecidableEq, Repr

/-- Accumulation of one constraint entry into the running `(violations,
total_violations_count)` pair of the `validate_all` loop. -/
def DataValidator.stepFold (df : DataFrame) (acc : List Violation × Nat)
    (cr : String × ColumnRules) : List Violation × Nat :=
  (acc.1 ++ (stepViolations df cr.1 cr.2).1, acc.2 + (stepViolations df cr.1 cr.2).2)

/-- The `validate_all` loop over all constraint entries. -/
def DataValidator.foldConstraints (df : DataFrame)
    (constraints : List (String × ColumnRules)) : List Violation × Nat :=
  constraints.foldl (stepFold df) (([] : List Violation), (0 : Nat))

/-- Shallow embedding of `DataValidator.validate_all`.  The score follows
source lines 51-52 exactly: the floor-at-0 clamp is applied before the flat
`-5` missing-data penalty (`len(df)*len(df.columns) or 1` is modelled by the
`if` on the product). -/
def DataValidator.validate_all (df : DataFrame)
    (constraints : List (String × ColumnRules)) : ValidationResult :=
  let folded := foldConstraints df constraints
  let violations := folded.1
  let totalViolationsCount := folded.2
  let denom : ℚ :=
    if df.nrows * df.ncols = 0 then 1 else ((df.nrows * df.ncols : Nat) : ℚ)
  let score0 : ℚ := max 0 (100 - ((totalViolationsCount : ℚ) / denom) * 1000)
  let score : ℚ := if 0 < df.totalNaCount then score0 - 5 else score0
  { summary :=
      { data_quality_score := score
        validation_passed := decide (score ≥ 80)
        total_issues := violations.length
        error_issues := (violations.filter (fun v => v.severity = "error")).length
        warning_issues := (violations.filter (fun v => v.severity = "warning")).length }
    constraint_violations := violations
    categorical_consistency := [] }

/-!  ## Cleaner (src/cleaner.py)

The Python object holds a working frame `self.df` and an action log
`self.history`; `CState` is that pair, and each method is a pure function on
it.  The aliasing discipline of `__init__` (`self.df = df.copy()`) is
modelled separately by the heap semantics further below. -/

/-- Working state of a `DataCleaner`: the owned frame and the action log. -/
structure CState where
  df : DataFrame
  history : List String
deriving DecidableEq, Repr

/-- Cell semantics of `pd.to_numeric(_, errors='coerce')`: numbers pass
through, missing stays missing, text parses or becomes missing.  Python
accepts general float literals; the model parses optional-sign integer text,
which is a faithful restriction in the sense that no claim depends on which
texts parse. -/
def toNumericCell : Val → Val
  | .num q => .num q
  | .na => .na
  | .str s => match s.toInt? with
    | some n => .num (n : ℚ)
    | none => .na

/-- Resulting dtype of `pd.to_numeric` on a column: an already numeric column
keeps its dtype; an object column becomes `int64` when every coerced cell is
an integer (no missing), else `float64`. -/
def coercedDtype (orig : Dtype) (coerced : List Val) : Dtype :=
  if orig.isNumeric then orig
  else if coerced.all (fun v => match v with | .num q => q.den = 1 | _ => false) then
    .int64
  else .float64

/-- Cell semantics of `.astype(str).replace('nan', np.nan)`: every cell is
turned into its text, then the literal text `"nan"` (which is what NaN prints
as) is turned back into missing.  Numeric text uses `toString ℚ`, which can
differ from Python float repr in formatting only; no claim inspects it. -/
def toCategoricalCell : Val → Val
  | .num q => .str (toString q)
  | .na => .na
  | .str s => if s = "nan" then .na else .str s

/-- Printed form of a fill value inside a log f-string. -/
def Val.toLogString : Val → String
  | .num q => toString q
  | .str s => s
  | .na => "nan"

/-- Replace missing cells by the numeric fill; `none` models a NaN fill value
(`fillna(NaN)` leaves the cell missing). -/
def fillNumCell (fv : Option ℚ) (v : Val) : Val :=
  if v.isna then match fv with | some q => .num q | none => .na else v

/-- Replace missing cells by the given fill value. -/
def fillCell (fv : Val) (v : Val) : Val :=
  if v.isna then fv else v

/-- Pandas `Series.mode()[0] if not ... .mode().empty else "Unknown"`: the
most frequent non-missing value, or `none` when there is none.  Among equally
frequent values the model keeps the first reaching the maximal count (pandas
sorts the modes; which tie is chosen matters to no claim). -/
def modeCell (cells : List Val) : Option Val :=
  match dropNa cells with
  | [] => none
  | v :: vs => some ((v :: vs).foldl
      (fun best x =>
        if (v :: vs).count x > (v :: vs).count best then x else best) v)

/-- Pandas `Series.clip(lower, upper)` on one cell: numeric values are capped
into the interval, missing stays missing. -/
def clipCell (lower upper : ℚ) : Val → Val
  | .num q => .num (min (max q lower) upper)
  | v => v

/-- Boolean row filter `(df[col] >= lower) & (df[col] <= upper)` on one cell:
NaN (and non-numeric cells) compare false, so such rows are dropped. -/
def cellInRange (lower upper : ℚ) : Val → Bool
  | .num q => decide (lower ≤ q) && decide (q ≤ upper)
  | _ => false

/-- Rewrites the cells of the column at header position `j`. -/
def DataFrame.mapColAt (df : DataFrame) (j : Nat) (f : Val → Val) : DataFrame :=
  { df with rows := df.rows.map (fun r => r.set j (f (r.getD j Val.na))) }

/-- Sets the dtype tag of the column at header position `j`. -/
def DataFrame.setDtypeAt (df : DataFrame) (j : Nat) (dt : Dtype) : DataFrame :=
  { df with
    header := df.header.set j ⟨(df.header.getD j ⟨"", .object⟩).name, dt⟩ }

/-- Configured type expectations (`expected_types`).  The source's early
return on an empty dict coincides with iterating two empty lists. -/
structure ExpectedTypes where
  numeric_columns : List String := []
  categorical_columns : List String := []

/-- One iteration of the numeric-coercion loop of `enforce_types`. -/
def DataCleaner.enforceNumericCol (st : CState) (c : String) : CState :=
  match st.df.colIdx c with
  | none => st
  | some j =>
    let origDt := (st.df.header.getD j ⟨"", .object⟩).dtype
    let coerced := (st.df.colCellsAt j).map toNumericCell
    let newDt := coercedDtype origDt coerced
    { df := (st.df.mapColAt j toNumericCell).setDtypeAt j newDt
      history :=
        if origDt ≠ newDt then st.history ++ ["Enforced numeric type for " ++ c]
        else st.history }

/-- One iteration of the categorical-coercion loop of `enforce_types`
(this loop logs unconditionally, source line 23). -/
def DataCleaner.enforceCategoricalCol (st : CState) (c : String) : CState :=
  match st.df.colIdx c with
  | none => st
  | some j =>
    { df := (st.df.mapColAt j toCategoricalCell).setDtypeAt j .object
      history := st.history ++ ["Enforced categorical type for " ++ c] }

/-- Shallow embedding of `DataCleaner.enforce_types`. -/
def DataCleaner.enforce_types (st : CState) (et : ExpectedTypes) : CState :=
  let st1 := et.numeric_columns.foldl DataCleaner.enforceNumericCol st
  et.categorical_columns.foldl DataCleaner.enforceCategoricalCol st1

/-- Shallow embedding of `DataCleaner.drop_constant_columns`.  Pandas
`df.drop(columns=...)` raises on an unknown name; the pipeline only passes
profiler-reported columns, and the model drops the present ones. -/
def DataCleaner.drop_constant_columns (st : CState) (cols : List String) : CState :=
  if cols.isEmpty then st
  else
    let keep := (List.range st.df.ncols).filter
      (fun j => (st.df.header.getD j ⟨"", .object⟩).name ∉ cols)
    { df := { header := keep.map (fun j => st.df.header.getD j ⟨"", .object⟩)
              rows := st.df.rows.map (fun r => keep.map (fun j => r.getD j Val.na)) }
      history := st.history ++
        ["Dropped constant columns: " ++ String.intercalate ", " cols] }

/-- Shallow embedding of `DataCleaner.drop_duplicates`. -/
def DataCleaner.drop_duplicates (st : CState) : CState :=
  let rows' := dedupRows [] st.df.rows
  let dropped := st.df.rows.length - rows'.length
  { df := { st.df with rows := rows' }
    history :=
      if 0 < dropped then
        st.history ++ ["Dropped " ++ toString dropped ++ " duplicate rows"]
      else st.history }

/-- One iteration of the `handle_missing_values` loop: drop rows on `error`
severity, otherwise impute (median for numeric dtype, mode or `"Unknown"`
otherwise), logging in every taken branch. -/
def DataCleaner.handleMissingCol (st : CState) (f : MissingFinding) : CState :=
  match st.df.colIdx f.column with
  | none => st
  | some j =>
    if f.severity = "error" then
      { df := { st.df with
                rows := st.df.rows.filter (fun r => !(r.getD j Val.na).isna) }
        history := st.history ++
          ["Dropped rows with missing " ++ f.column ++ " (High Severity)"] }
    else if (st.df.header.getD j ⟨"", .object⟩).dtype.isNumeric then
      let fv := medianOpt (numsOf (st.df.colCellsAt j))
      { df := st.df.mapColAt j (fillNumCell fv)
        history := st.history ++
          ["Imputed missing " ++ f.column ++ " with median (" ++
            (match fv with | some q => toString q | none => "nan") ++ ")"] }
    else
      let fv := (modeCell (st.df.colCellsAt j)).getD (.str "Unknown")
      { df := st.df.mapColAt j (fillCell fv)
        history := st.history ++
          ["Imputed missing " ++ f.column ++ " with mode (" ++ fv.toLogString ++ ")"] }

/-- Shallow embedding of `DataCleaner.handle_missing_values`. -/
def DataCleaner.handle_missing_values (st : CState) (missingAnalysis : List MissingFinding) :
    CState :=
  missingAnalysis.foldl DataCleaner.handleMissingCol st

/-- Entry of the outlier summary fed to `handle_outliers`; the source reads it
with `stats.get('iqr_outliers', 0)`. -/
structure OutlierStats where
  iqr_outliers : Nat := 0
deriving DecidableEq, Repr

/-- IQR fences of the named column computed from the current frame with the
hardcoded 1.5 multiplier (source lines 67-71): `(lower, upper)`. -/
def DataCleaner.iqrFences (df : DataFrame) (c : String) : ℚ × ℚ :=
  let nums := numsOf (df.colCells c)
  let q1 := quantileQ nums (1/4)
  let q3 := quantileQ nums (3/4)
  let iqr := q3 - q1
  (q1 - (3/2) * iqr, q3 + (3/2) * iqr)

/-- One iteration of the `handle_outliers` loop. -/
def DataCleaner.handleOutlierCol (method : String) (st : CState)
    (entry : String × OutlierStats) : CState :=
  match st.df.colIdx entry.1 with
  | none => st
  | some j =>
    if entry.2.iqr_outliers = 0 then st
    else
      let fences := DataCleaner.iqrFences st.df entry.1
      if method = "clip" then
        { df := st.df.mapColAt j (clipCell fences.1 fences.2)
          history := st.history ++ ["Clipped outliers in " ++ entry.1] }
      else if method = "remove" then
        { df := { st.df with
                  rows := st.df.rows.filter
                    (fun r => cellInRange fences.1 fences.2 (r.getD j Val.na)) }
          history := st.history ++ ["Removed rows with outliers in " ++ entry.1] }
      else st

/-- Shallow embedding of `DataCleaner.handle_outliers`. -/
def DataCleaner.handle_outliers (st : CState)
    (outlierSummary : List (String × OutlierStats)) (method : String) : CState :=
  outlierSummary.foldl (DataCleaner.handleOutlierCol method) st

/-!  ## Heap semantics of the Cleaner's ownership (src/cleaner.py line 6)

`DataCleaner.__init__` does `self.df = df.copy()`: the caller's frame and the
working frame are distinct pandas objects.  To make the aliasing claim (C8)
statable, frames live in a heap (a list of cells) and the cleaner holds an
index.  Construction allocates a fresh cell holding a copy of the caller's
frame; the in-place methods write through the cleaner's index only, and the
one rebinding assignment in the source (`self.df = self.df[...]` in the
`remove` branch of `handle_outliers`) allocates a fresh cell. -/

/-- Heap of pandas frames. -/
abbrev Heap := List DataFrame

/-- Cleaner object state under the heap semantics: the index of the owned
working frame, plus the action log. -/
structure HCleaner where
  dfRef : Nat
  history : List String
deriving DecidableEq, Repr

/-- One cleaning method invocation, as dispatched in `main.py`'s fixed order;
any sequence of these is considered. -/
inductive CleanOp where
  | enforceTypesOp (et : ExpectedTypes)
  | dropConstantOp (cols : List String)
  | dropDuplicatesOp
  | handleMissingOp (findings : List MissingFinding)
  | handleOutliersOp (summary : List (String × OutlierStats)) (method : String)

/-- Pure state transformer of one method invocation. -/
def applyCleanOp : CleanOp → CState → CState
  | .enforceTypesOp et => fun st => DataCleaner.enforce_types st et
  | .dropConstantOp cols => fun st => DataCleaner.drop_constant_columns st cols
  | .dropDuplicatesOp => fun st => DataCleaner.drop_duplicates st
  | .handleMissingOp fs => fun st => DataCleaner.handle_missing_values st fs
  | .handleOutliersOp s m => fun st => DataCleaner.handle_outliers st s m

/-- Whether the method rebinds `self.df` to a freshly allocated frame rather
than mutating in place: only the `remove` branch of `handle_outliers` does
(conservatively, whenever that method runs with `method='remove'`). -/
def opRebinds : CleanOp → Bool
  | .handleOutliersOp _ m => m = "remove"
  | _ => false

/-- `DataCleaner.__init__(df)`: allocate a fresh heap cell holding a copy of
the caller's frame at `r`, and point the cleaner at it. -/
def DataCleaner.init (h : Heap) (r : Nat) : Heap × HCleaner :=
  (h ++ [h.getD r emptyDF], ⟨h.length, []⟩)

/-- Heap semantics of one method invocation. -/
def heapStep (op : CleanOp) : Heap × HCleaner → Heap × HCleaner :=
  fun hs =>
    let cur := hs.1.getD hs.2.dfRef emptyDF
    let st' := applyCleanOp op ⟨cur, hs.2.history⟩
    if opRebinds op then
      (hs.1 ++ [st'.df], ⟨hs.1.length, st'.history⟩)
    else
      (hs.1.set hs.2.dfRef st'.df, ⟨hs.2.dfRef, st'.history⟩)

/-- Runs a sequence of cleaning method invocations under the heap semantics. -/
def runCleanOps (ops : List CleanOp) (hs : Heap × HCleaner) : Heap × HCleaner :=
  ops.foldl (fun acc op => heapStep op acc) hs

/-!  ## Concrete inputs used by the witness theorems  -/

/-- Concrete frame for the C8 witness. -/
def exDF8 : DataFrame :=
  ⟨[⟨"a", .float64⟩], [[.num 1], [.num 1]]⟩

/-- Concrete state for the C10 witness: one float column, one non-missing
cell. -/
def exSt10 : CState :=
  ⟨⟨[⟨"a", .float64⟩], [[.num 1]]⟩, []⟩

/-- Concrete severity-`none`, zero-missing finding for the C10 witness. -/
def exFinding10 : MissingFinding :=
  ⟨"a", 0, 0, "none", .float64, []⟩

/-- Concrete frame for the C4 witness: one numeric column `age`. -/
def exDF4 : DataFrame :=
  ⟨[⟨"age", .float64⟩], [[.num 20], [.num 30]]⟩

/-- Concrete frame for the C5 witness: a `salary` column with 1 missing value
out of 10 rows. -/
def exDF5 : DataFrame :=
  ⟨[⟨"salary", .float64⟩],
   [[.num 50], [.num 51], [.num 52], [.num 53], [.num 54],
    [.num 55], [.num 56], [.num 57], [.num 58], [.na]]⟩

/-- Concrete frame for the C1 counterexample: 1 row, an `age` value of 200
violating `max 100`, and a missing cell in column `b`. -/
def exDF1 : DataFrame :=
  ⟨[⟨"age", .float64⟩, ⟨"b", .float64⟩], [[.num 200, .na]]⟩

/-- Concrete constraints for the C1 counterexample. -/
def exCs1 : List (String × ColumnRules) :=
  [("age", ⟨none, some 100, none⟩)]

/-- Concrete frame for the C2 counterexample: one numeric column whose single
cell is missing. -/
def exDF2 : DataFrame :=
  ⟨[⟨"x", .float64⟩], [[.na]]⟩

/-- Concrete frame for the C7 witness: one numeric column `v` with values
`0, 10, 20, 30, 40` (Q1 = 10, Q3 = 30, IQR = 20). -/
def exDF7 : DataFrame :=
  ⟨[⟨"v", .float64⟩], [[.num 0], [.num 10], [.num 20], [.num 30], [.num 40]]⟩

/-- Concrete frame for the C6 witness: a constant numeric column `c` next to a
varying numeric column `v`. -/
def exDF6 : DataFrame :=
  ⟨[⟨"c", .float64⟩, ⟨"v", .float64⟩], [[.num 1, .num 10], [.num 1, .num 20]]⟩

/-- Concrete frame with no numeric column for the C6 witness. -/
def exDF6b : DataFrame :=
  ⟨[⟨"s", .object⟩], [[.str "x"]]⟩

/-- Concrete frame for the C3 witness (concrete scenario C): the 10-row `age`
column `[20, 25, 30, 35, 40, 45, 50, 55, 60, 150]`. -/
def exDF3 : DataFrame :=
  ⟨[⟨"age", .float64⟩],
   [[.num 20], [.num 25], [.num 30], [.num 35], [.num 40],
    [.num 45], [.num 50], [.num 55], [.num 60], [.num 150]]⟩

/-- Concrete cleaner state for the C3 witness. -/
def exSt3 : CState := ⟨exDF3, []⟩

/-!  ## General helper lemmas  -/

theorem set_getD_self {α : Type} :
    ∀ (l : List α) (j : Nat) (d : α), j < l.length → l.set j (l.getD j d) = l := by
  intro l
  induction l with
  | nil => intro j d h; simp at h
  | cons x xs ih =>
    intro j d h
    cases j with
    | zero => simp
    | succ n =>
      simp only [List.getD_cons_succ, List.set_cons_succ, List.cons.injEq, true_and]
      exact ih n d (by simpa using h)

theorem getD_set_ne {α : Type} (l : List α) {i j : Nat} (h : i ≠ j) (a d : α) :
    (l.set i a).getD j d = l.getD j d := by
  simp [List.getD_eq_getElem?_getD, List.getElem?_set_ne h]

theorem map_eq_self_of_mem {α : Type} {f : α → α} :
    ∀ {l : List α}, (∀ x ∈ l, f x = x) → l.map f = l := by
  intro l
  induction l with
  | nil => intro _; rfl
  | cons x xs ih =>
    intro h
    simp only [List.map_cons, List.cons.injEq]
    exact ⟨h x (by simp), ih (fun y hy => h y (by simp [hy]))⟩

theorem mem_dedupRows_not_mem_seen :
    ∀ (l seen : List Row) (x : Row), x ∈ dedupRows seen l → x ∉ seen := by
  intro l
  induction l with
  | nil => intro seen x hx; simp [dedupRows] at hx
  | cons r rs ih =>
    intro seen x hx
    by_cases hr : r ∈ seen
    · exact ih seen x (by simpa [dedupRows, hr] using hx)
    · rw [dedupRows, if_neg hr] at hx
      rcases List.mem_cons.mp hx with h | h
      · exact h ▸ hr
      · intro hmem
        exact ih (r :: seen) x h (List.mem_cons_of_mem r hmem)

theorem dedupRows_nodup : ∀ (l seen : List Row), (dedupRows seen l).Nodup := by
  intro l
  induction l with
  | nil => intro seen; simp [dedupRows]
  | cons r rs ih =>
    intro seen
    by_cases hr : r ∈ seen
    · simpa [dedupRows, hr] using ih seen
    · rw [dedupRows, if_neg hr]
      refine List.nodup_cons.mpr ⟨?_, ih (r :: seen)⟩
      intro hmem
      exact mem_dedupRows_not_mem_seen rs (r :: seen) r hmem (by simp)

theorem dedupRows_eq_self :
    ∀ (l seen : List Row), l.Nodup → (∀ x ∈ l, x ∉ seen) → dedupRows seen l = l := by
  intro l
  induction l with
  | nil => intro seen _ _; rfl
  | cons r rs ih =>
    intro seen hnd hout
    rw [dedupRows, if_neg (hout r (by simp))]
    refine congrArg (r :: ·) (ih (r :: seen) (List.nodup_cons.mp hnd).2 ?_)
    intro x hx
    rcases List.nodup_cons.mp hnd with ⟨hrn, _⟩
    intro hmem
    rcases List.mem_cons.mp hmem with h | h
    · exact hrn (h ▸ hx)
    · exact hout x (by simp [hx]) h

theorem dedupRows_idem (l : List Row) :
    dedupRows [] (dedupRows [] l) = dedupRows [] l :=
  dedupRows_eq_self (dedupRows [] l) [] (dedupRows_nodup l []) (by simp)

theorem findColIdx_isSome_iff (c : String) :
    ∀ (l : List ColumnDef), (findColIdx c l).isSome ↔ c ∈ l.map (·.name) := by
  intro l
  induction l with
  | nil => simp [findColIdx]
  | cons cd rest ih =>
    by_cases h : cd.name = c
    · simp [findColIdx, h]
    · cases hfx : findColIdx c rest <;>
        simp [findColIdx, h, hfx, eq_comm] at ih ⊢ <;> tauto

theorem findColIdx_lt_length (c : String) :
    ∀ (l : List ColumnDef) (j : Nat), findColIdx c l = some j → j < l.length := by
  intro l
  induction l with
  | nil => intro j h; simp [findColIdx] at h
  | cons cd rest ih =>
    intro j h
    rw [findColIdx] at h
    split at h
    · cases h; simp
    · rcases Option.map_eq_some'.mp h with ⟨i, hi, rfl⟩
      have := ih i hi
      simp only [List.length_cons]
      omega

theorem findColIdx_name (c : String) :
    ∀ (l : List ColumnDef) (j : Nat) (d : ColumnDef),
      findColIdx c l = some j → (l.getD j d).name = c := by
  intro l
  induction l with
  | nil => intro j d h; simp [findColIdx] at h
  | cons cd rest ih =>
    intro j d h
    rw [findColIdx] at h
    split at h
    · cases h
      simpa using (by assumption : cd.name = c)
    · rcases Option.map_eq_some'.mp h with ⟨i, hi, rfl⟩
      simpa using ih i d hi

/-!  ## Claim C9: `drop_duplicates` is idempotent  -/

/-- C9: applying `DataCleaner.drop_duplicates` twice yields exactly the state
of applying it once — the same rows (hence the same row count), and the second
application appends nothing to the action log. -/
theorem drop_duplicates_idempotent (st : CState) :
    DataCleaner.drop_duplicates (DataCleaner.drop_duplicates st) =
      DataCleaner.drop_duplicates st := by
  show CState.mk _ _ = CState.mk _ _
  simp only [DataCleaner.drop_duplicates, dedupRows_idem, Nat.sub_self,
    lt_self_iff_false, if_false]

/-!  ## Claim C8: the Cleaner never mutates the caller's frame  -/

theorem runCleanOps_frame :
    ∀ (ops : List CleanOp) (h : Heap) (st : HCleaner) (r : Nat),
      r < h.length → st.dfRef ≠ r →
      (runCleanOps ops (h, st)).1.getD r emptyDF = h.getD r emptyDF ∧
        r < (runCleanOps ops (h, st)).1.length ∧
        (runCleanOps ops (h, st)).2.dfRef ≠ r := by
  intro ops
  induction ops with
  | nil => intro h st r hr hne; exact ⟨rfl, hr, hne⟩
  | cons op rest ih =>
    intro h st r hr hne
    show (runCleanOps rest (heapStep op (h, st))).1.getD r emptyDF = _ ∧ _
    rcases hstep : heapStep op (h, st) with ⟨h', st'⟩
    have hkey : h'.getD r emptyDF = h.getD r emptyDF ∧ r < h'.length ∧ st'.dfRef ≠ r := by
      rw [heapStep] at hstep
      by_cases hreb : opRebinds op
      · simp only [hreb, if_true] at hstep
        cases hstep
        refine ⟨List.getD_append _ _ _ _ hr, ?_, ?_⟩
        · simp only [List.length_append]; omega
        · show h.length ≠ r; omega
      · simp only [hreb, if_false, Bool.false_eq_true] at hstep
        cases hstep
        refine ⟨getD_set_ne _ hne _ _, ?_, hne⟩
        simp only [List.length_set]; exact hr
    have := ih h' st' r hkey.2.1 hkey.2.2
    rw [show runCleanOps (op :: rest) (h, st) = runCleanOps rest (h', st') by
      simp [runCleanOps, hstep]]
    exact ⟨hkey.1 ▸ this.1, this.2⟩

/-- C8: for every heap, every caller frame handle `r`, and every sequence of
cleaning method invocations run on a cleaner constructed from that frame, the
caller's frame is unchanged afterwards — `DataCleaner.init` copies the frame
into a fresh cell and every operation writes only through the cleaner's own
reference. -/
theorem cleaner_preserves_original (h : Heap) (r : Nat) (ops : List CleanOp)
    (hr : r < h.length) :
    (runCleanOps ops (DataCleaner.init h r)).1.getD r emptyDF = h.getD r emptyDF := by
  have hlen : r < (h ++ [h.getD r emptyDF]).length := by
    simp only [List.length_append, List.length_cons, List.length_nil]; omega
  have hne : (h.length : Nat) ≠ r := by omega
  have := runCleanOps_frame ops (h ++ [h.getD r emptyDF]) ⟨h.length, []⟩ r hlen hne
  rw [DataCleaner.init]
  exact this.1.trans (List.getD_append _ _ _ _ hr)

/-- Witness for C8: a concrete one-frame heap and a concrete run (duplicate
dropping), after which the caller's cell still holds the original frame. -/
theorem cleaner_preserves_original_witness :
    (runCleanOps [CleanOp.dropDuplicatesOp]
        (DataCleaner.init [exDF8] 0)).1.getD 0 emptyDF = [exDF8].getD 0 emptyDF :=
  cleaner_preserves_original [exDF8] 0 [CleanOp.dropDuplicatesOp] (by simp)

/-!  ## Claim C10: `handle_missing_values` logs no-op imputations  -/

/-- C10: for a finding whose column exists in the working frame and whose
severity is not `error`, `handle_missing_values` appends an
`"Imputed missing …"` log entry — unconditionally, so in particular for a
severity-`none` finding on a column with zero missing cells, where the
imputation changes no cell of the frame. -/
theorem handle_missing_logs_noop_imputation (st : CState) (f : MissingFinding)
    (j : Nat) (hj : st.df.colIdx f.column = some j) (hsev : f.severity ≠ "error") :
    (∃ tail, (DataCleaner.handle_missing_values st [f]).history =
        st.history ++ [("Imputed missing " ++ f.column) ++ tail]) ∧
      (naCount (st.df.colCellsAt j) = 0 →
        (DataCleaner.handle_missing_values st [f]).df = st.df) := by
  have hnomiss : naCount (st.df.colCellsAt j) = 0 →
      ∀ r ∈ st.df.rows, ¬(r.getD j Val.na).isna = true := by
    intro h0 r hr
    have : (st.df.colCellsAt j).filter (fun v => v.isna) = [] :=
      List.length_eq_zero.mp h0
    have hmem : (r.getD j Val.na) ∈ st.df.colCellsAt j := by
      exact List.mem_map_of_mem _ hr
    exact List.filter_eq_nil_iff.mp this _ hmem
  have hdfeq : ∀ (g : Val → Val), (∀ v, ¬v.isna = true → g v = v) →
      naCount (st.df.colCellsAt j) = 0 → st.df.mapColAt j g = st.df := by
    intro g hg h0
    have hrows : st.df.rows.map (fun r => r.set j (g (r.getD j Val.na))) = st.df.rows := by
      refine map_eq_self_of_mem ?_
      intro r hr
      have hcell := hnomiss h0 r hr
      rw [hg _ hcell]
      have hlt : j < r.length := by
        by_contra hge
        have : r.getD j Val.na = Val.na := List.getD_eq_default _ _ (by omega)
        rw [this] at hcell
        simp [Val.isna] at hcell
      exact set_getD_self r j Val.na hlt
    simp only [DataFrame.mapColAt, hrows]
  simp only [DataCleaner.handle_missing_values, List.foldl_cons, List.foldl_nil,
    DataCleaner.handleMissingCol, hj, hsev, if_false]
  split
  · constructor
    · exact ⟨" with median (" ++
        (match medianOpt (numsOf (st.df.colCellsAt j)) with
         | some q => toString q
         | none => "nan") ++ ")", by simp [String.append_assoc]⟩
    · intro h0
      refine hdfeq _ (fun v hv => ?_) h0
      simp [fillNumCell, hv]
  · constructor
    · exact ⟨" with mode (" ++
        ((modeCell (st.df.colCellsAt j)).getD (.str "Unknown")).toLogString ++ ")",
        by simp [String.append_assoc]⟩
    · intro h0
      refine hdfeq _ (fun v hv => ?_) h0
      simp [fillCell, hv]

/-- Witness for C10: on the concrete state, the log gains an
`"Imputed missing a…"` entry while the frame is unchanged. -/
theorem handle_missing_logs_noop_imputation_witness :
    (∃ tail, (DataCleaner.handle_missing_values exSt10 [exFinding10]).history =
        exSt10.history ++ [("Imputed missing " ++ exFinding10.column) ++ tail]) ∧
      (DataCleaner.handle_missing_values exSt10 [exFinding10]).df = exSt10.df := by
  have h := handle_missing_logs_noop_imputation exSt10 exFinding10 0
    (by rfl) (by decide)
  exact ⟨h.1, h.2 (by decide)⟩

/-!  ## Claim C4: the Validator skips absent columns and malformed rules  -/

theorem stepViolations_column (df : DataFrame) (c : String) (rules : ColumnRules) :
    ∀ v ∈ (DataValidator.stepViolations df c rules).1,
      v.column = c ∧ (df.colIdx c).isSome := by
  intro v hv
  unfold DataValidator.stepViolations at hv
  by_cases hs : (df.colIdx c).isSome
  · refine ⟨?_, hs⟩
    simp only [hs, if_true, List.mem_append] at hv
    rcases hv with (hmin | hmax) | hrel
    · split at hmin
      · split at hmin
        · simp only [List.mem_singleton] at hmin
          subst hmin; rfl
        · exact absurd hmin (List.not_mem_nil v)
      · exact absurd hmin (List.not_mem_nil v)
    · split at hmax
      · split at hmax
        · simp only [List.mem_singleton] at hmax
          subst hmax; rfl
        · exact absurd hmax (List.not_mem_nil v)
      · exact absurd hmax (List.not_mem_nil v)
    · split at hrel
      · split at hrel
        · split at hrel
          · simp only [List.mem_singleton] at hrel
            subst hrel; rfl
          · exact absurd hrel (List.not_mem_nil v)
        · exact absurd hrel (List.not_mem_nil v)
      · exact absurd hrel (List.not_mem_nil v)
  · simp only [hs, Bool.false_eq_true, if_false] at hv
    simp at hv

theorem stepViolations_absent (df : DataFrame) (c : String) (rules : ColumnRules)
    (h : (df.colIdx c).isSome = false) :
    DataValidator.stepViolations df c rules = ([], 0) := by
  simp [DataValidator.stepViolations, h]

theorem mem_foldConstraints (df : DataFrame) :
    ∀ (cs : List (String × ColumnRules)) (acc : List Violation × Nat) (v : Violation),
      v ∈ (cs.foldl (DataValidator.stepFold df) acc).1 →
      v ∈ acc.1 ∨ ∃ e ∈ cs, v ∈ (DataValidator.stepViolations df e.1 e.2).1 := by
  intro cs
  induction cs with
  | nil => intro acc v hv; exact Or.inl hv
  | cons e rest ih =>
    intro acc v hv
    rw [List.foldl_cons] at hv
    rcases ih _ v hv with hacc | ⟨e', he', hv'⟩
    · rcases List.mem_append.mp hacc with h | h
      · exact Or.inl h
      · exact Or.inr ⟨e, by simp, h⟩
    · exact Or.inr ⟨e', by simp [he'], hv'⟩

/-- C4: `validate_all` is total and treats degenerate rules as skips — every
produced violation names a column of the frame (so a constraint on an absent
column yields no record), a constraint entry on an absent column leaves the
whole result exactly as if the entry were not there, and a malformed
relationship expression (one whose `df.query` raises) leaves the whole result
exactly as if the entry had no relationship rule, so the remaining rules are
still evaluated. -/
theorem validator_skips_bad_rules (df : DataFrame) (cs : List (String × ColumnRules))
    (pre post : List (String × ColumnRules)) (c : String) (rules : ColumnRules)
    (mn mx : Option ℚ) (expr : String) :
    (∀ v ∈ (DataValidator.validate_all df cs).constraint_violations,
        v.column ∈ df.colNames) ∧
    ((df.colIdx c).isSome = false →
      DataValidator.validate_all df (pre ++ (c, rules) :: post) =
        DataValidator.validate_all df (pre ++ post)) ∧
    (DataValidator.validate_all df (pre ++ (c, ⟨mn, mx, some ⟨expr, none⟩⟩) :: post) =
      DataValidator.validate_all df (pre ++ (c, ⟨mn, mx, none⟩) :: post)) := by
  refine ⟨?_, ?_, ?_⟩
  · intro v hv
    have hv' : v ∈ (DataValidator.foldConstraints df cs).1 := hv
    rcases mem_foldConstraints df cs _ v hv' with h | ⟨e, _, hve⟩
    · simp at h
    · have := stepViolations_column df e.1 e.2 v hve
      rw [this.1]
      exact (findColIdx_isSome_iff e.1 df.header).mp this.2
  · intro hnone
    have hfold : DataValidator.foldConstraints df (pre ++ (c, rules) :: post) =
        DataValidator.foldConstraints df (pre ++ post) := by
      unfold DataValidator.foldConstraints
      rw [List.foldl_append, List.foldl_append, List.foldl_cons]
      have : DataValidator.stepFold df (List.foldl (DataValidator.stepFold df)
          ([], 0) pre) (c, rules) =
          List.foldl (DataValidator.stepFold df) ([], 0) pre := by
        unfold DataValidator.stepFold
        rw [stepViolations_absent df c rules hnone]
        simp
      rw [this]
    unfold DataValidator.validate_all
    rw [hfold]
  · have hfold : DataValidator.foldConstraints df
        (pre ++ (c, ⟨mn, mx, some ⟨expr, none⟩⟩) :: post) =
        DataValidator.foldConstraints df (pre ++ (c, ⟨mn, mx, none⟩) :: post) := by
      unfold DataValidator.foldConstraints
      rw [List.foldl_append, List.foldl_append, List.foldl_cons, List.foldl_cons]
      have : DataValidator.stepFold df (List.foldl (DataValidator.stepFold df)
          ([], 0) pre) (c, ⟨mn, mx, some ⟨expr, none⟩⟩) =
          DataValidator.stepFold df (List.foldl (DataValidator.stepFold df)
          ([], 0) pre) (c, ⟨mn, mx, none⟩) := by
        unfold DataValidator.stepFold
        rfl
      rw [this]
    unfold DataValidator.validate_all
    rw [hfold]

/-- Witness for C4: a constraint on the absent column `zzz` is dropped without
effect, and a malformed relationship rule behaves exactly as no relationship
rule. -/
theorem validator_skips_bad_rules_witness :
    (∀ v ∈ (DataValidator.validate_all exDF4
        [("zzz", ⟨some 0, none, none⟩)]).constraint_violations,
      v.column ∈ exDF4.colNames) ∧
    (DataValidator.validate_all exDF4 [("zzz", ⟨some 0, none, none⟩)] =
      DataValidator.validate_all exDF4 []) ∧
    (DataValidator.validate_all exDF4
        [("age", ⟨some 0, none, some ⟨"age >>> 1", none⟩⟩)] =
      DataValidator.validate_all exDF4 [("age", ⟨some 0, none, none⟩)]) := by
  have h := validator_skips_bad_rules exDF4 [("zzz", ⟨some 0, none, none⟩)]
    [] [] "zzz" ⟨some 0, none, none⟩ (some 0) none "age >>> 1"
  have h2 := validator_skips_bad_rules exDF4 [] [] [] "age"
    ⟨some 0, none, none⟩ (some 0) none "age >>> 1"
  exact ⟨h.1, h.2.1 (by rfl), h2.2.2⟩

/-!  ## Claim C5: missing-value severity classification  -/

/-- C5: `MissingValueAnalyzer.analyze` classifies each column by the exact
threshold chain of the source — `error` iff the missing fraction exceeds the
critical threshold, else `warning` iff it exceeds the warning threshold, else
`info` iff it is positive, else `none` — and reports the raw missing count and
the percentage (fraction × 100). -/
theorem missing_severity_partition (df : DataFrame) (w c : ℚ) (j : Nat)
    (f : MissingFinding) (hwc : w < c)
    (hf : (MissingValueAnalyzer.analyze df w c).column_analysis[j]? = some f) :
    (f.severity = "error" ↔ MissingValueAnalyzer.missingPctAt df j > c) ∧
    (MissingValueAnalyzer.missingPctAt df j ≤ c →
      (f.severity = "warning" ↔ MissingValueAnalyzer.missingPctAt df j > w)) ∧
    (MissingValueAnalyzer.missingPctAt df j ≤ c →
      MissingValueAnalyzer.missingPctAt df j ≤ w →
      (f.severity = "info" ↔ MissingValueAnalyzer.missingPctAt df j > 0)) ∧
    (MissingValueAnalyzer.missingPctAt df j ≤ c →
      MissingValueAnalyzer.missingPctAt df j ≤ w →
      MissingValueAnalyzer.missingPctAt df j ≤ 0 → f.severity = "none") ∧
    f.missing_count = naCount (df.colCellsAt j) ∧
    f.missing_percentage = MissingValueAnalyzer.missingPctAt df j * 100 := by
  have hj : j < df.ncols := by
    by_contra hge
    rw [MissingValueAnalyzer.analyze] at hf
    simp only [List.getElem?_map] at hf
    rw [List.getElem?_eq_none (by simpa using hge)] at hf
    simp at hf
  have hfe : f = MissingValueAnalyzer.findingAt df w c j := by
    rw [MissingValueAnalyzer.analyze] at hf
    simp only [List.getElem?_map, List.getElem?_range hj] at hf
    simpa using hf.symm
  subst hfe
  unfold MissingValueAnalyzer.findingAt MissingValueAnalyzer.severityOf
  dsimp only
  refine ⟨?_, ?_, ?_, ?_, rfl, rfl⟩
  · split_ifs with h1 h2 h3
    · simp [h1]
    · simp [h1]
    · simp [h1]
    · simp [h1]
  · intro hc
    split_ifs with h1 h2 h3
    · exact absurd h1 (not_lt.mpr hc)
    · simp [h2]
    · simp [h2]
    · simp [h2]
  · intro hc hw
    split_ifs with h1 h2 h3
    · exact absurd h1 (not_lt.mpr hc)
    · exact absurd h2 (not_lt.mpr hw)
    · simp [h3]
    · simp [h3]
  · intro hc hw h0
    split_ifs with h1 h2 h3
    · exact absurd h1 (not_lt.mpr hc)
    · exact absurd h2 (not_lt.mpr hw)
    · exact absurd h3 (not_lt.mpr h0)
    · rfl

/-- Witness for C5 (concrete scenario B): under the default thresholds
`0.05 < 0.30`, the `salary` column is reported with `missing_count = 1`,
`missing_percentage = 10`, severity `warning`. -/
theorem missing_severity_partition_witness :
    (1/20 : ℚ) < 3/10 ∧
    ∃ f, (MissingValueAnalyzer.analyze exDF5 (1/20) (3/10)).column_analysis[0]? = some f ∧
      f.severity = "warning" ∧ f.missing_count = 1 ∧ f.missing_percentage = 10 := by
  have hf : (MissingValueAnalyzer.analyze exDF5 (1/20) (3/10)).column_analysis[0]? =
      some (MissingValueAnalyzer.findingAt exDF5 (1/20) (3/10) 0) := by
    simp [MissingValueAnalyzer.analyze, exDF5, DataFrame.ncols, List.range_succ]
  have hpct : MissingValueAnalyzer.missingPctAt exDF5 0 = 1/10 := by
    norm_num [MissingValueAnalyzer.missingPctAt, exDF5, DataFrame.nrows,
      DataFrame.colCellsAt, naCount, Val.isna]
  have h := missing_severity_partition exDF5 (1/20) (3/10) 0
    (MissingValueAnalyzer.findingAt exDF5 (1/20) (3/10) 0) (by norm_num) hf
  refine ⟨by norm_num, MissingValueAnalyzer.findingAt exDF5 (1/20) (3/10) 0, hf, ?_, ?_, ?_⟩
  · exact (h.2.1 (by rw [hpct]; norm_num)).mpr (by rw [hpct]; norm_num)
  · rw [h.2.2.2.2.1]
    decide
  · rw [h.2.2.2.2.2, hpct]
    norm_num

/-!  ## Claim C1: quality score range and pass flag  -/

/-- Counterexample to C1 as stated: on `exDF1`/`exCs1` the quality score is
`-5`, outside `[0, 100]` — the source clamps at 0 before subtracting the flat
5-point missing-data penalty. -/
theorem validator_score_below_zero :
    (DataValidator.validate_all exDF1 exCs1).summary.data_quality_score = -5 ∧
    (DataValidator.validate_all exDF1 exCs1).summary.data_quality_score < 0 := by
  have h : (DataValidator.validate_all exDF1 exCs1).summary.data_quality_score = -5 := by
    norm_num [DataValidator.validate_all, DataValidator.foldConstraints,
      DataValidator.stepFold, DataValidator.stepViolations, exDF1, exCs1,
      DataFrame.colIdx, findColIdx, DataFrame.colCells, DataFrame.colCellsAt,
      DataFrame.nrows, DataFrame.ncols, DataFrame.totalNaCount, naCount,
      Val.isna, Val.gtQ, Val.ltQ, max_def]
  exact ⟨h, by rw [h]; norm_num⟩

/-- C1 amended: for every frame and constraint mapping the quality score lies
in `[-5, 100]` (the flat missing-data penalty is applied after the clamp at 0,
so the score can reach `-5`), and `validation_passed` holds iff the score is
at least 80. -/
theorem validator_score_range (df : DataFrame) (cs : List (String × ColumnRules)) :
    -5 ≤ (DataValidator.validate_all df cs).summary.data_quality_score ∧
    (DataValidator.validate_all df cs).summary.data_quality_score ≤ 100 ∧
    ((DataValidator.validate_all df cs).summary.validation_passed = true ↔
      80 ≤ (DataValidator.validate_all df cs).summary.data_quality_score) := by
  unfold DataValidator.validate_all
  dsimp only
  have hdpos : (0 : ℚ) <
      (if df.nrows * df.ncols = 0 then 1 else ((df.nrows * df.ncols : Nat) : ℚ)) := by
    split
    · norm_num
    · exact_mod_cast Nat.pos_of_ne_zero (by assumption)
  have hppos : 0 ≤ (((DataValidator.foldConstraints df cs).2 : ℚ) /
      (if df.nrows * df.ncols = 0 then 1 else ((df.nrows * df.ncols : Nat) : ℚ))) * 1000 := by
    have : (0:ℚ) ≤ ((DataValidator.foldConstraints df cs).2 : ℚ) := by positivity
    positivity
  have h0 : (0:ℚ) ≤ max 0 (100 - (((DataValidator.foldConstraints df cs).2 : ℚ) /
      (if df.nrows * df.ncols = 0 then 1 else ((df.nrows * df.ncols : Nat) : ℚ))) * 1000) :=
    le_max_left _ _
  have h100 : max 0 (100 - (((DataValidator.foldConstraints df cs).2 : ℚ) /
      (if df.nrows * df.ncols = 0 then 1 else ((df.nrows * df.ncols : Nat) : ℚ))) * 1000)
      ≤ 100 := max_le (by norm_num) (by linarith)
  refine ⟨?_, ?_, ?_⟩
  · split <;> linarith
  · split <;> linarith
  · simp only [decide_eq_true_eq, ge_iff_le]

/-!  ## Claim C2: profiler statistics for all-missing numeric columns  -/

/-- Counterexample to C2 as stated: on a one-row frame whose numeric column
`x` is entirely missing, the profiler reports the mean as NaN, not as the
absent (`None`) marker — `col_data.empty` checks the unfiltered column, which
is non-empty. -/
theorem profiler_allmissing_mean_nan :
    ((DatasetProfiler.generate_profile exDF2).columns.lookup "x").map
        (fun s => s.numericStats.map (fun ns => ns.mean)) =
      some (some NumStat.nanStat) ∧
    NumStat.nanStat ≠ NumStat.absent := by
  constructor
  · simp [DatasetProfiler.generate_profile, DatasetProfiler.colStatsAt,
      DatasetProfiler.numStatOf, exDF2, DataFrame.ncols, DataFrame.colCellsAt,
      numsOf, Val.toNum, Dtype.isNumeric, List.range_succ]
  · decide

theorem numsOf_eq_nil_of_dropNa_nil (cells : List Val) (h : dropNa cells = []) :
    numsOf cells = [] := by
  have hall := List.filter_eq_nil_iff.mp h
  rw [numsOf, List.filterMap_eq_nil_iff]
  intro v hv
  have := hall v hv
  cases v with
  | num q => simp [Val.isna] at this
  | str s => simp [Val.isna] at this
  | na => rfl

/-- C2 amended: a numeric column's statistics are reported as absent (`None`)
exactly when the frame has zero rows; on a frame with at least one row, a
numeric column that is empty after removing missing values has all five
statistics reported as NaN (not `None`, not zero). -/
theorem profiler_stats_absent_iff_zero_rows (df : DataFrame) (j : Nat)
    (hnum : (df.header.getD j ⟨"", .object⟩).dtype.isNumeric = true) :
    ∃ ns, (DatasetProfiler.colStatsAt df j).numericStats = some ns ∧
      (ns.mean = NumStat.absent ↔ df.nrows = 0) ∧
      (df.nrows ≠ 0 → dropNa (df.colCellsAt j) = [] →
        ns.mean = NumStat.nanStat ∧ ns.std = NumStat.nanStat ∧
        ns.lo = NumStat.nanStat ∧ ns.hi = NumStat.nanStat ∧
        ns.median = NumStat.nanStat) := by
  have hlen : (df.colCellsAt j).length = df.nrows := by
    simp [DataFrame.colCellsAt, DataFrame.nrows]
  refine ⟨_, by rw [DatasetProfiler.colStatsAt]; dsimp only; rw [if_pos hnum], ?_, ?_⟩
  · rw [DatasetProfiler.numStatOf]
    constructor
    · intro h
      split at h
      · rw [← hlen]; assumption
      · split at h <;> simp at h
    · intro h
      rw [if_pos (hlen.trans h)]
  · intro hnz hempty
    have hcl : ¬(df.colCellsAt j).length = 0 := by rw [hlen]; exact hnz
    have hnil : numsOf (df.colCellsAt j) = [] :=
      numsOf_eq_nil_of_dropNa_nil _ hempty
    refine ⟨?_, ?_, ?_, ?_, ?_⟩ <;>
      simp [DatasetProfiler.numStatOf, DatasetProfiler.stdStatOf, hcl, hnil]

/-- Witness for the amended C2: on the concrete all-missing one-row frame,
the statistics block exists and its mean is NaN. -/
theorem profiler_stats_absent_iff_zero_rows_witness :
    ∃ ns, (DatasetProfiler.colStatsAt exDF2 0).numericStats = some ns ∧
      ns.mean = NumStat.nanStat ∧ ¬ns.mean = NumStat.absent := by
  obtain ⟨ns, hns, hiff, hnan⟩ :=
    profiler_stats_absent_iff_zero_rows exDF2 0 (by decide)
  have h := hnan (by decide) (by decide)
  exact ⟨ns, hns, h.1, fun hc => by
    have := hiff.mp hc
    simp [exDF2, DataFrame.nrows] at this⟩

/-!  ## Quantile interpolation lemmas  -/

theorem sortQ_sorted (xs : List ℚ) : List.Sorted (· ≤ ·) (sortQ xs) :=
  List.sorted_insertionSort (· ≤ ·) xs

theorem getD_le_getD_of_sorted {s : List ℚ} (hs : List.Sorted (· ≤ ·) s)
    {i j : Nat} (hij : i ≤ j) (hj : j < s.length) (d d' : ℚ) :
    s.getD i d ≤ s.getD j d' := by
  have hi : i < s.length := lt_of_le_of_lt hij hj
  rw [List.getD_eq_getElem s d hi, List.getD_eq_getElem s d' hj]
  rcases Nat.eq_or_lt_of_le hij with rfl | hlt
  · exact le_refl _
  · have hp := List.pairwise_iff_get.mp hs ⟨i, hi⟩ ⟨j, hj⟩ hlt
    simpa using hp

theorem interpAt_mono {s : List ℚ} (hs : List.Sorted (· ≤ ·) s) {g g' : ℚ}
    (h0 : 0 ≤ g) (hgg : g ≤ g') (hub : g' ≤ (s.length : ℚ) - 1) :
    interpAt s g ≤ interpAt s g' := by
  have hn : 1 ≤ s.length := by
    by_contra hc
    have hz : s.length = 0 := by omega
    rw [hz] at hub
    push_cast at hub
    linarith
  have hn1 : (1 : ℚ) ≤ (s.length : ℚ) := by exact_mod_cast hn
  have hfl0 : 0 ≤ ⌊g⌋ := Int.floor_nonneg.mpr h0
  have hfl0' : 0 ≤ ⌊g'⌋ := Int.floor_nonneg.mpr (le_trans h0 hgg)
  have hcast : ((⌊g⌋.toNat : Nat) : ℚ) = ((⌊g⌋ : ℤ) : ℚ) := by
    exact_mod_cast congrArg (fun z : ℤ => (z : ℚ)) (Int.toNat_of_nonneg hfl0)
  have hcast' : ((⌊g'⌋.toNat : Nat) : ℚ) = ((⌊g'⌋ : ℤ) : ℚ) := by
    exact_mod_cast congrArg (fun z : ℤ => (z : ℚ)) (Int.toNat_of_nonneg hfl0')
  have hA : ((⌊g⌋.toNat : Nat) : ℚ) ≤ g := by rw [hcast]; exact Int.floor_le g
  have hA' : ((⌊g'⌋.toNat : Nat) : ℚ) ≤ g' := by rw [hcast']; exact Int.floor_le g'
  have hB : g < ((⌊g⌋.toNat : Nat) : ℚ) + 1 := by rw [hcast]; exact_mod_cast Int.lt_floor_add_one g
  have hB' : g' < ((⌊g'⌋.toNat : Nat) : ℚ) + 1 := by rw [hcast']; exact_mod_cast Int.lt_floor_add_one g'
  have hloN : ⌊g⌋.toNat < s.length := by
    by_contra hc
    have : (s.length : ℚ) ≤ ((⌊g⌋.toNat : Nat) : ℚ) := by exact_mod_cast not_lt.mp hc
    linarith
  have hloN' : ⌊g'⌋.toNat < s.length := by
    by_contra hc
    have : (s.length : ℚ) ≤ ((⌊g'⌋.toNat : Nat) : ℚ) := by exact_mod_cast not_lt.mp hc
    linarith
  have hll : ⌊g⌋.toNat ≤ ⌊g'⌋.toNat := by
    have : ⌊g⌋ ≤ ⌊g'⌋ := Int.floor_mono hgg
    omega
  rw [interpAt, interpAt]
  rcases Nat.eq_or_lt_of_le hll with heq | hlt
  · rw [← heq]
    have hab : s.getD ⌊g⌋.toNat 0 ≤ s.getD (⌊g⌋.toNat + 1) (s.getD ⌊g⌋.toNat 0) := by
      by_cases hb : ⌊g⌋.toNat + 1 < s.length
      · exact getD_le_getD_of_sorted hs (Nat.le_succ _) hb _ _
      · have hge : s.length ≤ ⌊g⌋.toNat + 1 := by omega
        rw [List.getD_eq_default s _ hge]
    nlinarith [hab]
  · -- v(g) ≤ b = s[lo+1] ≤ s[lo'] = a' ≤ v(g')
    have hb1 : ⌊g⌋.toNat + 1 < s.length := by omega
    have hab : s.getD ⌊g⌋.toNat 0 ≤ s.getD (⌊g⌋.toNat + 1) (s.getD ⌊g⌋.toNat 0) :=
      getD_le_getD_of_sorted hs (Nat.le_succ _) hb1 _ _
    have hstep1 : interpAt s g ≤ s.getD (⌊g⌋.toNat + 1) (s.getD ⌊g⌋.toNat 0) := by
      rw [interpAt]
      nlinarith [hab]
    have hstep2 : s.getD (⌊g⌋.toNat + 1) (s.getD ⌊g⌋.toNat 0) ≤ s.getD ⌊g'⌋.toNat 0 :=
      getD_le_getD_of_sorted hs (by omega) hloN' _ _
    have hab' : s.getD ⌊g'⌋.toNat 0 ≤ s.getD (⌊g'⌋.toNat + 1) (s.getD ⌊g'⌋.toNat 0) := by
      by_cases hb : ⌊g'⌋.toNat + 1 < s.length
      · exact getD_le_getD_of_sorted hs (Nat.le_succ _) hb _ _
      · have hge : s.length ≤ ⌊g'⌋.toNat + 1 := by omega
        rw [List.getD_eq_default s _ hge]
    have hstep3 : s.getD ⌊g'⌋.toNat 0 ≤ interpAt s g' := by
      rw [interpAt]
      nlinarith [hab']
    rw [interpAt] at hstep1 hstep3
    linarith

theorem quantileQ_mono (xs : List ℚ) {p p' : ℚ}
    (hp0 : 0 ≤ p) (hpp : p ≤ p') (hp1 : p' ≤ 1) :
    quantileQ xs p ≤ quantileQ xs p' := by
  rw [quantileQ, quantileQ]
  by_cases hlen : (sortQ xs).length = 0
  · rw [if_pos hlen, if_pos hlen]
  · rw [if_neg hlen, if_neg hlen]
    have hn1 : (0 : ℚ) ≤ (sortQ xs).length - 1 := by
      have : 1 ≤ (sortQ xs).length := Nat.one_le_iff_ne_zero.mpr hlen
      have : (1 : ℚ) ≤ ((sortQ xs).length : ℚ) := by exact_mod_cast this
      linarith
    refine interpAt_mono (sortQ_sorted xs) (mul_nonneg hp0 hn1) ?_ ?_
    · exact mul_le_mul_of_nonneg_right hpp hn1
    · calc p' * ((sortQ xs).length - 1) ≤ 1 * ((sortQ xs).length - 1) :=
            mul_le_mul_of_nonneg_right hp1 hn1
        _ = ((sortQ xs).length : ℚ) - 1 := one_mul _

theorem quantileQ_q1_le_q3 (xs : List ℚ) :
    quantileQ xs (1/4) ≤ quantileQ xs (3/4) :=
  quantileQ_mono xs (by norm_num) (by norm_num) (by norm_num)

/-!  ## Claim C7: IQR count is antitone in the multiplier  -/

theorem iqrOutlierCount_antitone (nums : List ℚ) {k k' : ℚ} (hkk : k ≤ k') :
    OutlierDetector.iqrOutlierCount nums k' ≤ OutlierDetector.iqrOutlierCount nums k := by
  rw [OutlierDetector.iqrOutlierCount, OutlierDetector.iqrOutlierCount]
  have hiqr : 0 ≤ quantileQ nums (3/4) - quantileQ nums (1/4) := by
    linarith [quantileQ_q1_le_q3 nums]
  have hk1 : k * (quantileQ nums (3/4) - quantileQ nums (1/4)) ≤
      k' * (quantileQ nums (3/4) - quantileQ nums (1/4)) :=
    mul_le_mul_of_nonneg_right hkk hiqr
  apply List.Sublist.length_le
  apply List.monotone_filter_right
  intro x hx
  simp only [Bool.or_eq_true, decide_eq_true_eq] at hx ⊢
  rcases hx with hx | hx
  · left; linarith
  · right; linarith

theorem colSummary_iqr (nums : List ℚ) (k t : ℚ) (n : Nat) :
    (OutlierDetector.colSummary nums k t n).iqr_outliers =
      OutlierDetector.iqrOutlierCount nums k := rfl

theorem lookup_perColumn_antitone (nrows : Nat) (t : ℚ) {k k' : ℚ} (hkk : k ≤ k')
    (c : String) :
    ∀ (l : List (String × List Val)) (i i' : OutlierColInfo),
      (l.filterMap (fun nc => if nuniqueCells nc.2 ≤ 1 then none
        else some (nc.1, OutlierDetector.colSummary (numsOf nc.2) k t nrows))).lookup c
          = some i →
      (l.filterMap (fun nc => if nuniqueCells nc.2 ≤ 1 then none
        else some (nc.1, OutlierDetector.colSummary (numsOf nc.2) k' t nrows))).lookup c
          = some i' →
      i'.iqr_outliers ≤ i.iqr_outliers := by
  intro l
  induction l with
  | nil => intro i i' h1 _; simp at h1
  | cons nc rest ih =>
    intro i i' h1 h2
    by_cases hu : nuniqueCells nc.2 ≤ 1
    · rw [List.filterMap_cons_none (by simp [hu])] at h1 h2
      exact ih i i' h1 h2
    · simp only [List.filterMap_cons, if_neg hu] at h1 h2
      by_cases hb : (c == nc.1) = true
      · simp only [List.lookup_cons, hb, Option.some.injEq] at h1 h2
        rw [← h1, ← h2, colSummary_iqr, colSummary_iqr]
        exact iqrOutlierCount_antitone (numsOf nc.2) hkk
      · have hb' : (c == nc.1) = false := eq_false_of_ne_true hb
        simp only [List.lookup_cons, hb'] at h1 h2
        exact ih i i' h1 h2

/-- C7: holding the frame, the z-score threshold, and the multivariate
detector fixed, the IQR outlier count that `detect_all` reports for any
analyzed column is non-increasing as `iqr_multiplier` increases. -/
theorem iqr_count_antitone_in_multiplier (df : DataFrame) (t : ℚ)
    (iso : List (List ℚ) → Nat) {k k' : ℚ} (hkk : k ≤ k') (c : String)
    (i i' : OutlierColInfo)
    (h1 : ((OutlierDetector.detect_all df k t iso).per_column_summary).lookup c = some i)
    (h2 : ((OutlierDetector.detect_all df k' t iso).per_column_summary).lookup c = some i') :
    i'.iqr_outliers ≤ i.iqr_outliers := by
  unfold OutlierDetector.detect_all at h1 h2
  by_cases hkept : (OutlierDetector.keptNumericCols df).isEmpty
  · rw [if_pos hkept] at h1
    simp at h1
  · rw [if_neg hkept] at h1 h2
    dsimp only at h1 h2
    exact lookup_perColumn_antitone df.nrows t hkk c
      (OutlierDetector.keptNumericCols df) i i' h1 h2

/-- Witness for C7: at multiplier 0 the fences are `[10, 30]` and two values
are flagged; widening the multiplier to 1 gives fences `[-10, 50]` and no
flagged value — the count did not increase. -/
theorem iqr_count_antitone_in_multiplier_witness :
    ∃ i i' : OutlierColInfo,
      ((OutlierDetector.detect_all exDF7 0 3 (fun _ => 0)).per_column_summary).lookup "v"
          = some i ∧
      ((OutlierDetector.detect_all exDF7 1 3 (fun _ => 0)).per_column_summary).lookup "v"
          = some i' ∧
      i'.iqr_outliers ≤ i.iqr_outliers ∧ (0:ℚ) ≤ 1 := by
  have hsort : sortQ [(0:ℚ), 10, 20, 30, 40] = [0, 10, 20, 30, 40] := by
    norm_num [sortQ, List.insertionSort, List.orderedInsert]
  have hq1 : quantileQ [(0:ℚ), 10, 20, 30, 40] (1/4) = 10 := by
    rw [quantileQ, hsort]
    norm_num [interpAt, Int.toNat_ofNat]
  have hq3 : quantileQ [(0:ℚ), 10, 20, 30, 40] (3/4) = 30 := by
    rw [quantileQ, hsort]
    have h3 : Int.toNat 3 = 3 := rfl
    norm_num [interpAt, h3]
  have hkept : OutlierDetector.keptNumericCols exDF7 =
      [("v", [.num 0, .num 10, .num 20, .num 30, .num 40])] := by
    simp [OutlierDetector.keptNumericCols, exDF7, DataFrame.ncols,
      DataFrame.colCellsAt, dropNa, Val.isna, Dtype.isNumeric, List.range_succ]
  have hnums : numsOf [Val.num 0, .num 10, .num 20, .num 30, .num 40] =
      [(0:ℚ), 10, 20, 30, 40] := by
    simp [numsOf, Val.toNum]
  have hnu : ¬nuniqueCells [Val.num 0, .num 10, .num 20, .num 30, .num 40] ≤ 1 := by
    norm_num [nuniqueCells, dropNa, Val.isna, List.dedup]
  have hpc : ∀ k : ℚ, (OutlierDetector.detect_all exDF7 k 3 (fun _ => 0)).per_column_summary
      = [("v", OutlierDetector.colSummary [(0:ℚ), 10, 20, 30, 40] k 3 5)] := by
    intro k
    unfold OutlierDetector.detect_all
    rw [if_neg (by rw [hkept]; decide)]
    dsimp only
    rw [hkept]
    simp only [List.filterMap_cons, if_neg hnu, List.filterMap_nil, hnums]
    rfl
  refine ⟨OutlierDetector.colSummary [(0:ℚ), 10, 20, 30, 40] 0 3 5,
    OutlierDetector.colSummary [(0:ℚ), 10, 20, 30, 40] 1 3 5, ?_, ?_, ?_, ?_⟩
  · rw [hpc 0]; rfl
  · rw [hpc 1]; rfl
  · exact iqr_count_antitone_in_multiplier exDF7 3 (fun _ => 0)
      (show (0:ℚ) ≤ 1 by norm_num) "v" _ _
      (by rw [hpc 0]; rfl) (by rw [hpc 1]; rfl)
  · norm_num

/-!  ## Claim C6: no-numeric-data condition and constant-column skip  -/

theorem lookup_eq_none_of_keys_ne {β : Type} (c : String) :
    ∀ (l : List (String × β)), (∀ e ∈ l, e.1 ≠ c) → l.lookup c = none := by
  intro l
  induction l with
  | nil => intro _; rfl
  | cons e rest ih =>
    intro h
    rcases e with ⟨k0, b0⟩
    have hb : (c == k0) = false := by
      rw [beq_eq_false_iff_ne]
      exact fun hc => h (k0, b0) (by simp) hc.symm
    simp only [List.lookup_cons, hb]
    exact ih (fun e' he' => h e' (List.mem_cons_of_mem _ he'))

theorem mem_keptNumericCols (df : DataFrame) (nc : String × List Val) :
    nc ∈ OutlierDetector.keptNumericCols df →
    ∃ j, j < df.ncols ∧ nc.1 = (df.header.getD j ⟨"", .object⟩).name ∧
      nc.2 = df.colCellsAt j ∧
      (df.header.getD j ⟨"", .object⟩).dtype.isNumeric = true ∧
      dropNa (df.colCellsAt j) ≠ [] := by
  intro hmem
  rw [OutlierDetector.keptNumericCols, List.mem_filterMap] at hmem
  rcases hmem with ⟨j, hj, hsome⟩
  rw [List.mem_range] at hj
  dsimp only at hsome
  split at hsome
  · have h := Option.some.inj hsome
    rename_i hcond
    refine ⟨j, hj, ?_, ?_, hcond.1, ?_⟩
    · rw [← h]
    · rw [← h]
    · simpa [List.isEmpty_iff] using hcond.2
  · exact absurd hsome (by simp)

theorem name_getD_inj (df : DataFrame) (hnd : df.colNames.Nodup) :
    ∀ a b, a < df.ncols → b < df.ncols →
      (df.header.getD a ⟨"", .object⟩).name = (df.header.getD b ⟨"", .object⟩).name →
      a = b := by
  intro a b ha hb hab
  have ha0 : a < df.header.length := by simpa [DataFrame.ncols] using ha
  have hb0 : b < df.header.length := by simpa [DataFrame.ncols] using hb
  have ha1 : a < df.colNames.length := by
    simpa [DataFrame.colNames] using ha0
  have hb1 : b < df.colNames.length := by
    simpa [DataFrame.colNames] using hb0
  rw [List.getD_eq_getElem _ _ ha0, List.getD_eq_getElem _ _ hb0] at hab
  have hcn : df.colNames[a] = df.colNames[b] := by
    simpa [DataFrame.colNames, List.getElem_map] using hab
  exact hnd.getElem_inj_iff.mp hcn

/-- C6: `detect_all` reports the `'No numeric data'` error condition exactly
when no numeric column has a non-missing value (and then carries no
per-column findings), and otherwise produces no finding record for any
numeric column with at most one distinct non-missing value.  As a total
function of the embedding it never raises. -/
theorem outlier_no_numeric_and_constant_skip (df : DataFrame) (k t : ℚ)
    (iso : List (List ℚ) → Nat) (hnd : df.colNames.Nodup) :
    ((OutlierDetector.detect_all df k t iso).errorMsg.isSome ↔
      ¬∃ j, j < df.ncols ∧ (df.header.getD j ⟨"", .object⟩).dtype.isNumeric = true ∧
        dropNa (df.colCellsAt j) ≠ []) ∧
    ((OutlierDetector.detect_all df k t iso).errorMsg.isSome →
      (OutlierDetector.detect_all df k t iso).per_column_summary = []) ∧
    (∀ j, j < df.ncols → (df.header.getD j ⟨"", .object⟩).dtype.isNumeric = true →
      nuniqueCells (df.colCellsAt j) ≤ 1 →
      ((OutlierDetector.detect_all df k t iso).per_column_summary).lookup
        ((df.header.getD j ⟨"", .object⟩).name) = none) := by
  have hkeptchar : (OutlierDetector.keptNumericCols df).isEmpty = true ↔
      ¬∃ j, j < df.ncols ∧ (df.header.getD j ⟨"", .object⟩).dtype.isNumeric = true ∧
        dropNa (df.colCellsAt j) ≠ [] := by
    rw [List.isEmpty_iff, OutlierDetector.keptNumericCols, List.filterMap_eq_nil_iff]
    constructor
    · rintro hall ⟨j, hj, hnum, hne⟩
      have hj' := hall j (List.mem_range.mpr hj)
      dsimp only at hj'
      rw [if_pos ⟨hnum, by simpa [List.isEmpty_iff] using hne⟩] at hj'
      exact absurd hj' (by simp)
    · intro hnex j hj
      rw [List.mem_range] at hj
      dsimp only
      split
      · rename_i hcond
        exact absurd ⟨j, hj, hcond.1, by simpa [List.isEmpty_iff] using hcond.2⟩ hnex
      · rfl
  by_cases hkept : (OutlierDetector.keptNumericCols df).isEmpty
  · refine ⟨?_, ?_, ?_⟩
    · unfold OutlierDetector.detect_all
      rw [if_pos hkept]
      simpa using hkeptchar.mp hkept
    · intro _
      unfold OutlierDetector.detect_all
      rw [if_pos hkept]
    · intro j _ _ _
      unfold OutlierDetector.detect_all
      rw [if_pos hkept]
      rfl
  · refine ⟨?_, ?_, ?_⟩
    · unfold OutlierDetector.detect_all
      rw [if_neg hkept]
      dsimp only
      constructor
      · intro h; exact absurd h (by simp)
      · intro h
        exact absurd (hkeptchar.mpr h) hkept
    · intro habs
      unfold OutlierDetector.detect_all at habs
      rw [if_neg hkept] at habs
      simp at habs
    · intro j hj hnum hu
      unfold OutlierDetector.detect_all
      rw [if_neg hkept]
      dsimp only
      apply lookup_eq_none_of_keys_ne
      intro e hmem heq
      rw [List.mem_filterMap] at hmem
      rcases hmem with ⟨nc, hnc, hsome⟩
      rcases mem_keptNumericCols df nc hnc with ⟨i, hi, hname, hcells, _, _⟩
      split at hsome
      · exact absurd hsome (by simp)
      · rename_i hcond
        have he1 : e.1 = nc.1 := by
          have h := Option.some.inj hsome
          rw [← h]
        rw [he1, hname] at heq
        have hij : i = j := name_getD_inj df hnd i j hi hj heq
        rw [hij] at hcells
        rw [hcells] at hcond
        omega

/-- Witness for C6: on `exDF6` the constant column `c` gets no finding record,
and on the numeric-free `exDF6b` the error condition is reported. -/
theorem outlier_no_numeric_and_constant_skip_witness :
    ((OutlierDetector.detect_all exDF6 (3/2) 3 (fun _ => 0)).per_column_summary).lookup "c"
        = none ∧
    (OutlierDetector.detect_all exDF6b (3/2) 3 (fun _ => 0)).errorMsg.isSome = true := by
  constructor
  · have h := (outlier_no_numeric_and_constant_skip exDF6 (3/2) 3 (fun _ => 0)
      (by decide)).2.2 0 (by decide) (by decide)
      (by norm_num [nuniqueCells, dropNa, Val.isna, DataFrame.colCellsAt, exDF6,
        List.dedup])
    exact h
  · refine (outlier_no_numeric_and_constant_skip exDF6b (3/2) 3 (fun _ => 0)
      (by decide)).1.mpr ?_
    rintro ⟨j, hj, hnum, _⟩
    have hj0 : j = 0 := by
      have : exDF6b.ncols = 1 := rfl
      omega
    subst hj0
    simp [exDF6b, Dtype.isNumeric] at hnum

/-!  ## Claim C3: outlier clipping caps to freshly computed IQR fences  -/

/-- C3: for a summary entry naming a present column with a nonzero IQR-outlier
count, `handle_outliers` with method `clip` rewrites exactly that column by
capping every cell into the IQR fences computed from the *current* working
frame (`DataCleaner.iqrFences`, multiplier 1.5), and logs the action. -/
theorem handle_outliers_clip_fences (st : CState) (c : String) (info : OutlierStats)
    (j : Nat) (hj : st.df.colIdx c = some j) (hnz : info.iqr_outliers ≠ 0) :
    DataCleaner.handle_outliers st [(c, info)] "clip" =
      ⟨st.df.mapColAt j (clipCell (DataCleaner.iqrFences st.df c).1
          (DataCleaner.iqrFences st.df c).2),
        st.history ++ ["Clipped outliers in " ++ c]⟩ := by
  simp only [DataCleaner.handle_outliers, List.foldl_cons, List.foldl_nil,
    DataCleaner.handleOutlierCol, hj, hnz, if_false]
  simp

/-- Witness for C3: clipping `age` with summary `{age: {iqr_outliers: 1}}`
caps the column at the upper fence `Q3 + 1.5·IQR = 87.5`, so the resulting
maximum is `87.5`, which is strictly less than the old maximum `150`. -/
theorem handle_outliers_clip_fences_witness :
    maxQ (numsOf ((DataCleaner.handle_outliers exSt3 [("age", ⟨1⟩)] "clip").df.colCells
        "age")) = 175/2 ∧
    (DataCleaner.iqrFences exDF3 "age").2 = 175/2 ∧
    (175/2 : ℚ) < 150 := by
  have hq1 : quantileQ [(20:ℚ), 25, 30, 35, 40, 45, 50, 55, 60, 150] (1/4) = 125/4 := by
    have hsort : sortQ [(20:ℚ), 25, 30, 35, 40, 45, 50, 55, 60, 150] =
        [20, 25, 30, 35, 40, 45, 50, 55, 60, 150] := by
      norm_num [sortQ, List.insertionSort, List.orderedInsert]
    rw [quantileQ, hsort]
    have h2 : Int.toNat 2 = 2 := rfl
    norm_num [interpAt, h2]
  have hq3 : quantileQ [(20:ℚ), 25, 30, 35, 40, 45, 50, 55, 60, 150] (3/4) = 215/4 := by
    have hsort : sortQ [(20:ℚ), 25, 30, 35, 40, 45, 50, 55, 60, 150] =
        [20, 25, 30, 35, 40, 45, 50, 55, 60, 150] := by
      norm_num [sortQ, List.insertionSort, List.orderedInsert]
    rw [quantileQ, hsort]
    have h6 : Int.toNat 6 = 6 := rfl
    norm_num [interpAt, h6]
  have hcells : numsOf (exDF3.colCells "age") =
      [(20:ℚ), 25, 30, 35, 40, 45, 50, 55, 60, 150] := rfl
  have hfences : DataCleaner.iqrFences exDF3 "age" = (-(5/2), 175/2) := by
    rw [DataCleaner.iqrFences, hcells, hq1, hq3]
    norm_num [Prod.ext_iff]
  have h := handle_outliers_clip_fences exSt3 "age" ⟨1⟩ 0 rfl (by decide)
  refine ⟨?_, by rw [hfences], by norm_num⟩
  rw [h]
  show maxQ (numsOf ((exSt3.df.mapColAt 0 (clipCell (DataCleaner.iqrFences exSt3.df "age").1
      (DataCleaner.iqrFences exSt3.df "age").2)).colCells "age")) = 175/2
  rw [show exSt3.df = exDF3 from rfl, hfences]
  have hmapped : (exDF3.mapColAt 0 (clipCell (-(5/2)) (175/2))).colCells "age" =
      [.num 20, .num 25, .num 30, .num 35, .num 40,
       .num 45, .num 50, .num 55, .num 60, .num (175/2)] := by
    show (exDF3.mapColAt 0 (clipCell (-(5/2)) (175/2))).colCellsAt 0 =
      [.num 20, .num 25, .num 30, .num 35, .num 40,
       .num 45, .num 50, .num 55, .num 60, .num (175/2)]
    simp only [DataFrame.mapColAt, DataFrame.colCellsAt, exDF3, List.map_cons,
      List.map_nil, clipCell, List.getD_cons_zero, List.set_cons_zero]
    norm_num [min_def, max_def]
  rw [hmapped]
  show maxQ [(20:ℚ), 25, 30, 35, 40, 45, 50, 55, 60, 175/2] = 175/2
  norm_num [maxQ, max_def]

end DQA
